import Mathlib

/-!
Verification of the shot-resolution and trajectory-prediction core of a
2D snooker simulation written in JavaScript (p5.js rendering, Matter.js
physics).

Embedding conventions:
* JavaScript numbers are modelled as exact rationals (`ℚ`); decimal
  literals of the source such as `0.35` become `35/100`.
* The mutable globals (`cueBall`, `redBalls`, `colouredBalls`, `cue`,
  `spinControl`, `isShooting`, `canShoot`, `cueBallPlaced`,
  `trajectoryPreview`) become fields of a `GameState` record which the
  embedded event handlers transform.
* The ambient numeric library functions whose *values* flow into results
  (`sqrt` inside the line-circle solver and the direction renormalisation,
  `cos` / `sin` / `atan2` and the constant `HALF_PI` for angles) are passed
  as explicit function parameters; theorems assume exactly the algebraic
  facts about them that the relevant run needs (for example that `sqrt`
  squares back to its argument at the one value where it is applied).
* Source comparisons of the shape `sqrt e ⋈ r` against a nonnegative
  bound `r` (pocket capture, placement overlap, D-zone membership, spin
  UI hit test, the settling speed threshold) are embedded as the
  equivalent `e ⋈ r^2`: square root is strictly monotone on nonnegative
  arguments, so the two tests agree; this keeps the predicates
  computable and hypothesis-free.
* Rendering, sound, trails, particle effects and the replay frame store
  are outside the modelled state; the boolean `recording` flag is kept
  because the shot lifecycle toggles it.
-/

namespace Snooker

/-- Table length in pixels (source: `var tableLength = 900`). -/
def tableLength : ℚ := 900

/-- Table width, source: `tableLength / 2`. -/
def tableWidth : ℚ := tableLength / 2

/-- Source: `var cushionThickness = 25`. -/
def cushionThickness : ℚ := 25

/-- Canvas width from `createCanvas(1100, 700)`. -/
def canvasWidth : ℚ := 1100

/-- Canvas height from `createCanvas(1100, 700)`. -/
def canvasHeight : ℚ := 700

/-- Source (`initTableMeasurements`): `tableX = (width - tableLength) / 2`. -/
def tableX : ℚ := (canvasWidth - tableLength) / 2

/-- Source (`initTableMeasurements`): `tableY = (height - tableWidth) / 2`. -/
def tableY : ℚ := (canvasHeight - tableWidth) / 2

/-- Source: `playAreaLength = tableLength - (cushionThickness * 2)`. -/
def playAreaLength : ℚ := tableLength - cushionThickness * 2

/-- Source: `playAreaWidth = tableWidth - (cushionThickness * 2)`. -/
def playAreaWidth : ℚ := tableWidth - cushionThickness * 2

/-- Source: `ballDiameter = tableWidth / 36`. -/
def ballDiameter : ℚ := tableWidth / 36

/-- Source: `ballRadius = ballDiameter / 2`. -/
def ballRadius : ℚ := ballDiameter / 2

/-- Source: `pocketSize = ballDiameter * 1.5`. -/
def pocketSize : ℚ := ballDiameter * (3/2)

/-- Source: `dRadius = playAreaWidth * 0.26`. -/
def dRadius : ℚ := playAreaWidth * (26/100)

/-- Record returned by `lineCircleCollision` on a hit:
`{ x: ..., y: ..., dist: ... }` in the source. -/
structure HitPoint where
  x : ℚ
  y : ℚ
  dist : ℚ
  deriving DecidableEq, Repr

/-- Shallow embedding of the source function `lineCircleCollision(x1, y1,
x2, y2, cx, cy, radius)`: line-segment/circle intersection via the
quadratic in the parametric coordinate `t` along the segment.  `sqrtF` is
the ambient `sqrt`, which the source applies to the discriminant and, for
the `dist` field, to the squared segment length `a`. -/
def lineCircleCollision (sqrtF : ℚ → ℚ) (x1 y1 x2 y2 cx cy radius : ℚ) :
    Option HitPoint :=
  let dx := x2 - x1
  let dy := y2 - y1
  let fx := x1 - cx
  let fy := y1 - cy
  let a := dx * dx + dy * dy
  let b := 2 * (fx * dx + fy * dy)
  let c := fx * fx + fy * fy - radius * radius
  let discriminant := b * b - 4 * a * c
  if discriminant < 0 then none
  else
    let s := sqrtF discriminant
    let t1 := (-b - s) / (2 * a)
    let t2 := (-b + s) / (2 * a)
    if 0 ≤ t1 ∧ t1 ≤ 1 then
      some ⟨x1 + t1 * dx, y1 + t1 * dy, t1 * sqrtF a⟩
    else if 0 ≤ t2 ∧ t2 ≤ 1 then
      some ⟨x1 + t2 * dx, y1 + t2 * dy, t2 * sqrtF a⟩
    else none

lemma lineCircleCollision_def (sqrtF : ℚ → ℚ) (x1 y1 x2 y2 cx cy radius : ℚ) :
    lineCircleCollision sqrtF x1 y1 x2 y2 cx cy radius =
      (if (2 * ((x1 - cx) * (x2 - x1) + (y1 - cy) * (y2 - y1))) *
            (2 * ((x1 - cx) * (x2 - x1) + (y1 - cy) * (y2 - y1))) -
          4 * ((x2 - x1) * (x2 - x1) + (y2 - y1) * (y2 - y1)) *
            ((x1 - cx) * (x1 - cx) + (y1 - cy) * (y1 - cy) - radius * radius) < 0
      then none
      else
        let a := (x2 - x1) * (x2 - x1) + (y2 - y1) * (y2 - y1)
        let b := 2 * ((x1 - cx) * (x2 - x1) + (y1 - cy) * (y2 - y1))
        let s := sqrtF (b * b - 4 * a *
          ((x1 - cx) * (x1 - cx) + (y1 - cy) * (y1 - cy) - radius * radius))
        let t1 := (-b - s) / (2 * a)
        let t2 := (-b + s) / (2 * a)
        if 0 ≤ t1 ∧ t1 ≤ 1 then
          some ⟨x1 + t1 * (x2 - x1), y1 + t1 * (y2 - y1), t1 * sqrtF a⟩
        else if 0 ≤ t2 ∧ t2 ≤ 1 then
          some ⟨x1 + t2 * (x2 - x1), y1 + t2 * (y2 - y1), t2 * sqrtF a⟩
        else none) := rfl

/-- A value of the quadratic `a·t² + b·t + c` at either root produced by
the quadratic formula is zero, provided `s` squares to the discriminant. -/
lemma quad_root_eval (a b c s t : ℚ) (ha : a ≠ 0) (hs : s * s = b * b - 4 * a * c)
    (ht : t = (-b - s) / (2 * a) ∨ t = (-b + s) / (2 * a)) :
    a * (t * t) + b * t + c = 0 := by
  have h2a : (2 : ℚ) * a ≠ 0 := by
    intro h
    exact ha (by linarith [mul_eq_zero.mp h |>.resolve_left (by norm_num)])
  rcases ht with ht | ht <;> subst ht <;>
    field_simp <;> ring_nf <;> nlinarith [hs]

/-- C1.  `lineCircleCollision` is correct: a discriminant `< 0` yields no
intersection; any returned record lies on the segment (parametric
`t ∈ [0,1]`) at squared distance `radius²` from the circle centre (for
nonnegative inputs this is distance `radius`); when both roots lie in
`[0,1]` the smaller root `t1` is the one returned; and when the
discriminant is nonnegative but both roots fall outside `[0,1]`, no
intersection is returned.  Hypotheses: the segment is nondegenerate
(`a ≠ 0`) and the ambient `sqrt` returns the exact nonnegative square
root at the discriminant. -/
theorem C1_lineCircleCollision_correct
    (sqrtF : ℚ → ℚ) (x1 y1 x2 y2 cx cy radius a b c disc s t1 t2 : ℚ)
    (hA : a = (x2 - x1) * (x2 - x1) + (y2 - y1) * (y2 - y1))
    (hB : b = 2 * ((x1 - cx) * (x2 - x1) + (y1 - cy) * (y2 - y1)))
    (hC : c = (x1 - cx) * (x1 - cx) + (y1 - cy) * (y1 - cy) - radius * radius)
    (hD : disc = b * b - 4 * a * c)
    (hS : s = sqrtF disc)
    (hT1 : t1 = (-b - s) / (2 * a))
    (hT2 : t2 = (-b + s) / (2 * a))
    (ha0 : a ≠ 0)
    (hsq : 0 ≤ disc → 0 ≤ s ∧ s * s = disc) :
    (disc < 0 → lineCircleCollision sqrtF x1 y1 x2 y2 cx cy radius = none) ∧
    (∀ r : HitPoint, lineCircleCollision sqrtF x1 y1 x2 y2 cx cy radius = some r →
      ∃ t, 0 ≤ t ∧ t ≤ 1 ∧ r.x = x1 + t * (x2 - x1) ∧ r.y = y1 + t * (y2 - y1) ∧
        (r.x - cx) ^ 2 + (r.y - cy) ^ 2 = radius ^ 2) ∧
    (0 ≤ disc → (0 ≤ t1 ∧ t1 ≤ 1) → (0 ≤ t2 ∧ t2 ≤ 1) →
      t1 ≤ t2 ∧ lineCircleCollision sqrtF x1 y1 x2 y2 cx cy radius =
        some ⟨x1 + t1 * (x2 - x1), y1 + t1 * (y2 - y1), t1 * sqrtF a⟩) ∧
    (0 ≤ disc → ¬(0 ≤ t1 ∧ t1 ≤ 1) → ¬(0 ≤ t2 ∧ t2 ≤ 1) →
      lineCircleCollision sqrtF x1 y1 x2 y2 cx cy radius = none) := by
  subst hA hB hC hD hS hT1 hT2
  rw [lineCircleCollision_def]
  set dx := x2 - x1 with hdx
  set dy := y2 - y1 with hdy
  set a := dx * dx + dy * dy with ha
  set b := 2 * ((x1 - cx) * dx + (y1 - cy) * dy) with hb
  set c := (x1 - cx) * (x1 - cx) + (y1 - cy) * (y1 - cy) - radius * radius with hc
  set disc := b * b - 4 * a * c with hdisc
  set s := sqrtF disc with hs
  set t1 := (-b - s) / (2 * a) with ht1
  set t2 := (-b + s) / (2 * a) with ht2
  have hanneg : (0:ℚ) ≤ a := by
    rw [ha]; exact add_nonneg (mul_self_nonneg dx) (mul_self_nonneg dy)
  have hapos : 0 < a := lt_of_le_of_ne hanneg (Ne.symm ha0)
  have hdist : ∀ t : ℚ, a * (t * t) + b * t + c = 0 →
      (x1 + t * dx - cx) ^ 2 + (y1 + t * dy - cy) ^ 2 = radius ^ 2 := by
    intro t ht
    have : (x1 + t * dx - cx) ^ 2 + (y1 + t * dy - cy) ^ 2 - radius ^ 2 =
        a * (t * t) + b * t + c := by rw [ha, hb, hc]; ring
    nlinarith [this, ht]
  refine ⟨?_, ?_, ?_, ?_⟩
  · intro hneg
    rw [if_pos hneg]
  · intro r hr
    by_cases hneg : disc < 0
    · rw [if_pos hneg] at hr; exact absurd hr (by simp)
    · rw [if_neg hneg] at hr
      have hroot := hsq (not_lt.mp hneg)
      by_cases h1 : 0 ≤ t1 ∧ t1 ≤ 1
      · rw [if_pos h1] at hr
        obtain rfl := Option.some.inj hr
        exact ⟨t1, h1.1, h1.2, rfl, rfl,
          hdist t1 (quad_root_eval a b c s t1 ha0 (by rw [hroot.2, hdisc]) (Or.inl ht1))⟩
      · rw [if_neg h1] at hr
        by_cases h2 : 0 ≤ t2 ∧ t2 ≤ 1
        · rw [if_pos h2] at hr
          obtain rfl := Option.some.inj hr
          exact ⟨t2, h2.1, h2.2, rfl, rfl,
            hdist t2 (quad_root_eval a b c s t2 ha0 (by rw [hroot.2, hdisc]) (Or.inr ht2))⟩
        · rw [if_neg h2] at hr; exact absurd hr (by simp)
  · intro hpos h1 h2
    have hroot := hsq hpos
    constructor
    · rw [ht1, ht2]
      exact (div_le_div_iff_of_pos_right (by linarith : (0:ℚ) < 2 * a)).mpr
        (by linarith [hroot.1])
    · rw [if_neg (not_lt.mpr hpos), if_pos h1]
  · intro hpos h1 h2
    rw [if_neg (not_lt.mpr hpos), if_neg h1, if_neg h2]

/-- Exact square-root table for the C1 witness run: the solver applies it
at the discriminant `3600` and at the squared segment length `100`. -/
def c1sqrt : ℚ → ℚ := fun q => if q = 3600 then 60 else if q = 100 then 10 else 0

/-- Witness for C1: the segment `(0,0)–(10,0)` through the circle of radius
`3` centred at `(5,0)` has both roots `1/5 ≤ 4/5` in `[0,1]` and the solver
returns the entry point `(2,0)` at parametric distance `2` from the start. -/
theorem C1_lineCircleCollision_correct_witness :
    lineCircleCollision c1sqrt 0 0 10 0 5 0 3 = some ⟨2, 0, 2⟩ ∧ ((1:ℚ)/5) ≤ 4/5 := by
  have h := C1_lineCircleCollision_correct c1sqrt 0 0 10 0 5 0 3 100 (-100) 16 3600 60
    (1/5) (4/5) (by norm_num) (by norm_num) (by norm_num) (by norm_num)
    (by norm_num [c1sqrt]) (by norm_num) (by norm_num) (by norm_num)
    (fun _ => ⟨by norm_num, by norm_num⟩)
  have h3 := h.2.2.1 (by norm_num) ⟨by norm_num, by norm_num⟩ ⟨by norm_num, by norm_num⟩
  refine ⟨?_, h3.1⟩
  rw [h3.2]
  norm_num [c1sqrt]

/-- A ball: position, velocity and the Matter.js body fields the core
touches (`frictionAir` via `Body.set`, the force accumulator via
`Body.applyForce`, angular velocity via `Body.setAngularVelocity`). -/
structure Ball where
  x : ℚ
  y : ℚ
  vx : ℚ
  vy : ℚ
  frictionAir : ℚ
  forceX : ℚ
  forceY : ℚ
  angularVelocity : ℚ
  deriving DecidableEq, Repr

/-- Source: `var BALL_FRICTION_AIR = 0.001`. -/
def BALL_FRICTION_AIR : ℚ := 1/1000

/-- The six coloured categories, in the iteration order of the source's
`colouredBalls` object literal. -/
inductive Colour
  | yellow
  | green
  | brown
  | blue
  | pink
  | black
  deriving DecidableEq, Repr

/-- The `colouredBalls` global: one ball per coloured category (the source
initialises all six and only ever re-spots them, never removes them). -/
structure Coloureds where
  yellow : Ball
  green : Ball
  brown : Ball
  blue : Ball
  pink : Ball
  black : Ball
  deriving DecidableEq, Repr

def Coloureds.get (cs : Coloureds) : Colour → Ball
  | .yellow => cs.yellow
  | .green => cs.green
  | .brown => cs.brown
  | .blue => cs.blue
  | .pink => cs.pink
  | .black => cs.black

/-- Iteration order of `for (var colour in colouredBalls)`. -/
def colourList : List Colour := [.yellow, .green, .brown, .blue, .pink, .black]

def colouredBallsList (cs : Coloureds) : List Ball := colourList.map cs.get

/-- Hex colour strings of `BALL_COLORS` for the coloured categories. -/
def colourHex : Colour → String
  | .yellow => "#FDD835"
  | .green => "#388E3C"
  | .brown => "#6D4C41"
  | .blue => "#1976D2"
  | .pink => "#F48FB1"
  | .black => "#212121"

/-- `BALL_COLORS.cue`. -/
def cueHex : String := "#FFFEF2"

/-- `BALL_COLORS.red`. -/
def redHex : String := "#D32F2F"

/-- Quantities local to `initBallSpots`. -/
def spotCenterX : ℚ := tableX + tableLength / 2

def spotPlayTop : ℚ := tableY + cushionThickness

def spotPlayBottom : ℚ := tableY + tableWidth - cushionThickness

def spotPlayHeight : ℚ := spotPlayBottom - spotPlayTop

/-- `baulkY` in `initBallSpots`: `playBottom - (playHeight * 0.2)`. -/
def spotBaulkY : ℚ := spotPlayBottom - spotPlayHeight * (2/10)

/-- The `spotPositions` map for the coloured categories. -/
def spotPositions : Colour → ℚ × ℚ
  | .yellow => (spotCenterX - dRadius, spotBaulkY)
  | .green => (spotCenterX + dRadius, spotBaulkY)
  | .brown => (spotCenterX, spotBaulkY)
  | .blue => (spotCenterX, spotPlayTop + spotPlayHeight / 2)
  | .pink => (spotCenterX, spotPlayTop + spotPlayHeight * (25/100))
  | .black => (spotCenterX, spotPlayTop + spotPlayHeight * (8/100))

/-- `initPocketPositions`: `var offset = pocketSize * 0.35`. -/
def pocketOffset : ℚ := pocketSize * (35/100)

/-- The six pocket centres of `initPocketPositions`, in source order
(four corners, then the two middle pockets). -/
def pocketPositions : List (ℚ × ℚ) :=
  [ (tableX + pocketOffset, tableY + pocketOffset),
    (tableX + tableLength - pocketOffset, tableY + pocketOffset),
    (tableX + pocketOffset, tableY + tableWidth - pocketOffset),
    (tableX + tableLength - pocketOffset, tableY + tableWidth - pocketOffset),
    (tableX + tableLength / 2, tableY),
    (tableX + tableLength / 2, tableY + tableWidth) ]

/-- The `cue` global (aim angle in radians, pull-back power, drag state). -/
structure CueStick where
  angle : ℚ
  length : ℚ
  pullBack : ℚ
  maxPullBack : ℚ
  isAiming : Bool
  tipOffset : ℚ
  dragStartX : ℚ
  dragStartY : ℚ
  deriving DecidableEq, Repr

/-- The `spinControl` global (UI position fields are the constants
`spinUiX`/`spinUiY`/`spinUiRadius` below). -/
structure SpinState where
  x : ℚ
  y : ℚ
  isDragging : Bool
  deriving DecidableEq, Repr

/-- `spinControl.uiX = width - 60` (set in `setup`). -/
def spinUiX : ℚ := canvasWidth - 60

/-- `spinControl.uiY = height - 60`. -/
def spinUiY : ℚ := canvasHeight - 60

/-- `spinControl.uiRadius = 35`. -/
def spinUiRadius : ℚ := 35

/-- A predicted path point: `{ x:…, y:…, bounce:… }`. -/
structure TrajPoint where
  x : ℚ
  y : ℚ
  bounce : ℕ
  deriving DecidableEq, Repr

/-- The `trajectoryPreview.ghostBall` record; the source stores a reference
to the struck body, embedded here as its centre coordinates. -/
structure GhostBall where
  x : ℚ
  y : ℚ
  targetX : ℚ
  targetY : ℚ
  targetColor : String
  deriving DecidableEq, Repr

/-- A post-collision deflection ray pushed onto
`trajectoryPreview.collisionBalls`. -/
structure DeflectRay where
  startX : ℚ
  startY : ℚ
  dirX : ℚ
  dirY : ℚ
  color : String
  length : ℚ
  deriving DecidableEq, Repr

/-- The result record of `checkTrajectoryBallCollision` (`closest`); the
struck body reference is embedded as its centre coordinates. -/
structure HitInfo where
  ballX : ℚ
  ballY : ℚ
  color : String
  hitX : ℚ
  hitY : ℚ
  dist : ℚ
  deriving DecidableEq, Repr

/-- The mutable fields of the `trajectoryPreview` global. -/
structure TrajectoryPreview where
  points : List TrajPoint
  ghostBall : Option GhostBall
  collisionBalls : List DeflectRay
  deriving DecidableEq, Repr

/-- The mutable global state the core reads and writes. -/
structure GameState where
  cueBall : Option Ball
  redBalls : List Ball
  coloureds : Coloureds
  cue : CueStick
  spin : SpinState
  cueBallPlaced : Bool
  isShooting : Bool
  canShoot : Bool
  recording : Bool
  trajectory : TrajectoryPreview
  deriving DecidableEq, Repr

/-- `trajectoryPreview.maxBounces = 3`. -/
def trajectoryMaxBounces : ℕ := 3

/-- `trajectoryPreview.maxDistance = 800`. -/
def trajectoryMaxDistance : ℚ := 800

/-- `var stepSize = 5` in `calculateTrajectoryPreview`. -/
def trajStepSize : ℚ := 5

/-- `innerLeft = tableX + cushionThickness + ballRadius` (trajectory
boundaries, inset by a ball radius). -/
def innerLeftT : ℚ := tableX + cushionThickness + ballRadius

def innerRightT : ℚ := tableX + tableLength - cushionThickness - ballRadius

def innerTopT : ℚ := tableY + cushionThickness + ballRadius

def innerBottomT : ℚ := tableY + tableWidth - cushionThickness - ballRadius

/-- Spin-curve adjustment of the marched point, from the body of
`calculateTrajectoryPreview`: if `abs(curveAmount) > 0.01`, displace the
next point along the perpendicular `(-dirY, dirX)` by `curveAmount * 0.3`
and decay `curveAmount` by `0.995`. -/
def trajCurve (dirX dirY nextX nextY curve : ℚ) : ℚ × ℚ × ℚ :=
  if 1/100 < |curve| then
    (nextX + (-dirY) * curve * (3/10), nextY + dirX * curve * (3/10),
      curve * (995/1000))
  else (nextX, nextY, curve)

/-- Horizontal cushion-bounce handling of `calculateTrajectoryPreview`:
clamp `nextX` to the crossed boundary, negate `dirX`, count the bounce. -/
def trajBounceX (dirX : ℚ) (bounces : ℕ) (nextX : ℚ) : ℚ × ℚ × ℕ :=
  if nextX < innerLeftT then (innerLeftT, -dirX, bounces + 1)
  else if innerRightT < nextX then (innerRightT, -dirX, bounces + 1)
  else (nextX, dirX, bounces)

/-- Vertical cushion-bounce handling, after the horizontal one. -/
def trajBounceY (dirY : ℚ) (bounces : ℕ) (nextY : ℚ) : ℚ × ℚ × ℕ :=
  if nextY < innerTopT then (innerTopT, -dirY, bounces + 1)
  else if innerBottomT < nextY then (innerBottomT, -dirY, bounces + 1)
  else (nextY, dirY, bounces)

/-- Embedding of `checkTrajectoryBallCollision(x1, y1, x2, y2)`: test the
segment against every ball (paired with its display colour), keeping the
hit with the smallest `dist`; `minDist = ballDiameter` is the collision
radius passed to the solver. -/
def checkTrajectoryBallCollision (sqrtF : ℚ → ℚ) (balls : List (Ball × String))
    (x1 y1 x2 y2 : ℚ) : Option HitInfo :=
  balls.foldl
    (fun closest bc =>
      match lineCircleCollision sqrtF x1 y1 x2 y2 bc.1.x bc.1.y ballDiameter with
      | none => closest
      | some collision =>
        match closest with
        | none => some ⟨bc.1.x, bc.1.y, bc.2, collision.x, collision.y, collision.dist⟩
        | some cl =>
          if collision.dist < cl.dist then
            some ⟨bc.1.x, bc.1.y, bc.2, collision.x, collision.y, collision.dist⟩
          else closest)
    none

/-- `getAllBallsExceptCue()`: red balls first, then the coloured balls in
object order, each paired with its `BALL_COLORS` entry. -/
def getAllBallsExceptCue (s : GameState) : List (Ball × String) :=
  s.redBalls.map (fun b => (b, redHex)) ++
    colourList.map (fun c => (s.coloureds.get c, colourHex c))

/-- `var spinEffect = spinControl.y * 0.3` in `calculateDeflectionPaths`
(source comment: top spin = less deflection, back spin = more). -/
def deflectSpinEffect (spinY : ℚ) : ℚ := spinY * (3/10)

/-- Bundle of the ambient numeric functions (`p5.js` maths) whose values
flow into results. -/
structure MathOracle where
  sqrt : ℚ → ℚ
  cos : ℚ → ℚ
  sin : ℚ → ℚ
  atan2 : ℚ → ℚ → ℚ
  halfPi : ℚ

/-- Embedding of `calculateDeflectionPaths(hitInfo)`: returns the two rays
pushed onto `trajectoryPreview.collisionBalls` — first the struck ball's
ray (from its centre, along the normalised contact-to-centre vector,
length 80), then the cue ball's ray (from the contact point, at the
line-of-centres angle plus `HALF_PI` plus the spin correction, length 50).
The source also computes `cueVelX`/`cueVelY` from `cue.angle` but never
uses them. -/
def calculateDeflectionPaths (o : MathOracle) (spinY : ℚ) (hit : HitInfo) :
    List DeflectRay :=
  let targetX := hit.ballX
  let targetY := hit.ballY
  let hitX := hit.hitX
  let hitY := hit.hitY
  let toTargetX := targetX - hitX
  let toTargetY := targetY - hitY
  let toTargetLen := o.sqrt (toTargetX * toTargetX + toTargetY * toTargetY)
  let toTargetX := toTargetX / toTargetLen
  let toTargetY := toTargetY / toTargetLen
  let spinEffect := deflectSpinEffect spinY
  let deflectAngle := o.atan2 toTargetY toTargetX + o.halfPi + spinEffect
  [ ⟨targetX, targetY, toTargetX, toTargetY, hit.color, 80⟩,
    ⟨hitX, hitY, o.cos deflectAngle, o.sin deflectAngle, cueHex, 50⟩ ]

/-- Loop state of the march in `calculateTrajectoryPreview`: current
point, direction, bounce count, distance travelled, and the decaying
side-spin curve amount. -/
structure TrajState where
  x : ℚ
  y : ℚ
  dirX : ℚ
  dirY : ℚ
  bounces : ℕ
  totalDist : ℚ
  curve : ℚ
  deriving DecidableEq, Repr

/-- The `while` loop of `calculateTrajectoryPreview`, with explicit fuel
(the loop always terminates in at most `maxDistance / stepSize + 1`
iterations because `totalDist` grows by `stepSize` each pass; callers
supply ample fuel).  Each iteration: record the current point; advance by
`stepSize` along the direction; apply the spin curve; clamp/reflect
against the four interior cushion boundaries; before any bounce, test the
advanced segment against the other balls and stop on the first hit;
otherwise commit the move and renormalise the direction. -/
def trajLoop (sqrtF : ℚ → ℚ) (balls : List (Ball × String)) :
    ℕ → TrajState → List TrajPoint × Option HitInfo
  | 0, _ => ([], none)
  | fuel + 1, st =>
    if st.bounces ≤ trajectoryMaxBounces ∧ st.totalDist < trajectoryMaxDistance then
      let pt : TrajPoint := ⟨st.x, st.y, st.bounces⟩
      let c3 := trajCurve st.dirX st.dirY (st.x + st.dirX * trajStepSize)
        (st.y + st.dirY * trajStepSize) st.curve
      let bX := trajBounceX st.dirX st.bounces c3.1
      let bY := trajBounceY st.dirY bX.2.2 c3.2.1
      let hit := if bY.2.2 = 0 then
          checkTrajectoryBallCollision sqrtF balls st.x st.y bX.1 bY.1
        else none
      match hit with
      | some h => ([pt], some h)
      | none =>
        let dirLen := sqrtF (bX.2.1 * bX.2.1 + bY.2.1 * bY.2.1)
        let rest := trajLoop sqrtF balls fuel
          ⟨bX.1, bY.1, bX.2.1 / dirLen, bY.2.1 / dirLen, bY.2.2,
            st.totalDist + trajStepSize, c3.2.2⟩
        (pt :: rest.1, rest.2)
    else ([], none)

/-- Ample fuel for `trajLoop` (the loop body runs at most 161 times). -/
def trajFuel : ℕ := 200

/-- Embedding of `calculateTrajectoryPreview()` as a pure computation of
the new `trajectoryPreview` value from the cue ball position, aim angle,
spin, and the other balls. -/
def calculateTrajectoryPreviewRun (o : MathOracle) (cueAngle spinX spinY cueX cueY : ℚ)
    (balls : List (Ball × String)) : TrajectoryPreview :=
  let dirX := o.cos cueAngle
  let dirY := o.sin cueAngle
  let curveAmount := spinX * (15/100)
  let res := trajLoop o.sqrt balls trajFuel ⟨cueX, cueY, dirX, dirY, 0, 0, curveAmount⟩
  { points := res.1
    ghostBall := res.2.map (fun h => ⟨h.hitX, h.hitY, h.ballX, h.ballY, h.color⟩)
    collisionBalls := (res.2.map (calculateDeflectionPaths o spinY)).getD [] }

/-- `calculateTrajectoryPreview()` acting on the global state: it clears
and rewrites only the `trajectoryPreview` global (early return when there
is no cue ball). -/
def calculateTrajectoryPreviewS (o : MathOracle) (s : GameState) : GameState :=
  match s.cueBall with
  | none => { s with trajectory := ⟨[], none, []⟩ }
  | some b =>
    let tp := calculateTrajectoryPreviewRun o s.cue.angle s.spin.x s.spin.y b.x b.y
      (getAllBallsExceptCue s)
    { s with trajectory := tp }

lemma trajCurve_zero (dirX dirY nextX nextY : ℚ) :
    trajCurve dirX dirY nextX nextY 0 = (nextX, nextY, 0) := by
  norm_num [trajCurve]

lemma trajBounceX_left (dirX : ℚ) (bounces : ℕ) (nextX : ℚ)
    (h : nextX < innerLeftT) :
    trajBounceX dirX bounces nextX = (innerLeftT, -dirX, bounces + 1) := by
  simp [trajBounceX, h]

lemma innerLeftT_lt_innerRightT : innerLeftT < innerRightT := by
  norm_num [innerLeftT, innerRightT, tableX, tableLength, cushionThickness,
    ballRadius, ballDiameter, tableWidth, canvasWidth]

lemma innerTopT_lt_innerBottomT : innerTopT < innerBottomT := by
  norm_num [innerTopT, innerBottomT, tableY, tableLength, cushionThickness,
    ballRadius, ballDiameter, tableWidth, canvasHeight]

lemma trajBounceX_right (dirX : ℚ) (bounces : ℕ) (nextX : ℚ)
    (h : innerRightT < nextX) :
    trajBounceX dirX bounces nextX = (innerRightT, -dirX, bounces + 1) := by
  have h1 : ¬ nextX < innerLeftT :=
    not_lt.mpr (le_of_lt (innerLeftT_lt_innerRightT.trans h))
  simp [trajBounceX, h1, h]

lemma trajBounceX_none (dirX : ℚ) (bounces : ℕ) (nextX : ℚ)
    (h1 : innerLeftT ≤ nextX) (h2 : nextX ≤ innerRightT) :
    trajBounceX dirX bounces nextX = (nextX, dirX, bounces) := by
  simp [trajBounceX, not_lt.mpr h1, not_lt.mpr h2]

lemma trajBounceY_top (dirY : ℚ) (bounces : ℕ) (nextY : ℚ)
    (h : nextY < innerTopT) :
    trajBounceY dirY bounces nextY = (innerTopT, -dirY, bounces + 1) := by
  simp [trajBounceY, h]

lemma trajBounceY_bottom (dirY : ℚ) (bounces : ℕ) (nextY : ℚ)
    (h : innerBottomT < nextY) :
    trajBounceY dirY bounces nextY = (innerBottomT, -dirY, bounces + 1) := by
  have h1 : ¬ nextY < innerTopT :=
    not_lt.mpr (le_of_lt (innerTopT_lt_innerBottomT.trans h))
  simp [trajBounceY, h1, h]

lemma trajBounceY_none (dirY : ℚ) (bounces : ℕ) (nextY : ℚ)
    (h1 : innerTopT ≤ nextY) (h2 : nextY ≤ innerBottomT) :
    trajBounceY dirY bounces nextY = (nextY, dirY, bounces) := by
  simp [trajBounceY, not_lt.mpr h1, not_lt.mpr h2]

/-- Every recorded path point is pushed under the loop guard, so its
bounce tag never exceeds the bounce limit. -/
lemma trajLoop_bounce_le (sqrtF : ℚ → ℚ) (balls : List (Ball × String)) :
    ∀ (fuel : ℕ) (st : TrajState), ∀ p ∈ (trajLoop sqrtF balls fuel st).1,
      p.bounce ≤ trajectoryMaxBounces := by
  intro fuel
  induction fuel with
  | zero => intro st p hp; simp [trajLoop] at hp
  | succ n ih =>
    intro st p hp
    simp only [trajLoop] at hp
    by_cases hg : st.bounces ≤ trajectoryMaxBounces ∧ st.totalDist < trajectoryMaxDistance
    · rw [if_pos hg] at hp
      split at hp
      · simp at hp
        subst hp
        exact hg.1
      · simp only [List.mem_cons] at hp
        rcases hp with hp | hp
        · subst hp; exact hg.1
        · exact ih _ p hp
    · rw [if_neg hg] at hp
      simp at hp

/-- Single-crossing reflection step at the left cushion boundary, for a
unit direction and zero curve: the recorded point carries the current
bounce tag, and the next loop state has the point clamped to the
boundary, the x direction component negated, the y component unchanged,
and the bounce counter incremented by exactly one. -/
lemma trajLoop_step_left (sqrtF : ℚ → ℚ) (balls : List (Ball × String))
    (fuel : ℕ) (st : TrajState)
    (hg : st.bounces ≤ trajectoryMaxBounces ∧ st.totalDist < trajectoryMaxDistance)
    (hcurve : st.curve = 0)
    (hdir : st.dirX * st.dirX + st.dirY * st.dirY = 1)
    (hs1 : sqrtF 1 = 1)
    (hx : st.x + st.dirX * trajStepSize < innerLeftT)
    (hy1 : innerTopT ≤ st.y + st.dirY * trajStepSize)
    (hy2 : st.y + st.dirY * trajStepSize ≤ innerBottomT) :
    trajLoop sqrtF balls (fuel + 1) st =
      ((⟨st.x, st.y, st.bounces⟩ : TrajPoint) ::
          (trajLoop sqrtF balls fuel
            ⟨innerLeftT, st.y + st.dirY * trajStepSize, -st.dirX, st.dirY,
              st.bounces + 1, st.totalDist + trajStepSize, 0⟩).1,
        (trajLoop sqrtF balls fuel
          ⟨innerLeftT, st.y + st.dirY * trajStepSize, -st.dirX, st.dirY,
            st.bounces + 1, st.totalDist + trajStepSize, 0⟩).2) := by
  have hdir1 : -st.dirX * -st.dirX + st.dirY * st.dirY = 1 := by
    rw [neg_mul_neg]; exact hdir
  simp only [trajLoop, if_pos hg, hcurve, trajCurve_zero,
    trajBounceX_left st.dirX st.bounces _ hx,
    trajBounceY_none st.dirY (st.bounces + 1) _ hy1 hy2,
    Nat.succ_ne_zero, ite_false, if_false,
    hdir1, hs1, div_one]

/-- Single-crossing reflection step at the right cushion boundary. -/
lemma trajLoop_step_right (sqrtF : ℚ → ℚ) (balls : List (Ball × String))
    (fuel : ℕ) (st : TrajState)
    (hg : st.bounces ≤ trajectoryMaxBounces ∧ st.totalDist < trajectoryMaxDistance)
    (hcurve : st.curve = 0)
    (hdir : st.dirX * st.dirX + st.dirY * st.dirY = 1)
    (hs1 : sqrtF 1 = 1)
    (hx : innerRightT < st.x + st.dirX * trajStepSize)
    (hy1 : innerTopT ≤ st.y + st.dirY * trajStepSize)
    (hy2 : st.y + st.dirY * trajStepSize ≤ innerBottomT) :
    trajLoop sqrtF balls (fuel + 1) st =
      ((⟨st.x, st.y, st.bounces⟩ : TrajPoint) ::
          (trajLoop sqrtF balls fuel
            ⟨innerRightT, st.y + st.dirY * trajStepSize, -st.dirX, st.dirY,
              st.bounces + 1, st.totalDist + trajStepSize, 0⟩).1,
        (trajLoop sqrtF balls fuel
          ⟨innerRightT, st.y + st.dirY * trajStepSize, -st.dirX, st.dirY,
            st.bounces + 1, st.totalDist + trajStepSize, 0⟩).2) := by
  have hdir1 : -st.dirX * -st.dirX + st.dirY * st.dirY = 1 := by
    rw [neg_mul_neg]; exact hdir
  simp only [trajLoop, if_pos hg, hcurve, trajCurve_zero,
    trajBounceX_right st.dirX st.bounces _ hx,
    trajBounceY_none st.dirY (st.bounces + 1) _ hy1 hy2,
    Nat.succ_ne_zero, ite_false, if_false,
    hdir1, hs1, div_one]

/-- Single-crossing reflection step at the top cushion boundary. -/
lemma trajLoop_step_top (sqrtF : ℚ → ℚ) (balls : List (Ball × String))
    (fuel : ℕ) (st : TrajState)
    (hg : st.bounces ≤ trajectoryMaxBounces ∧ st.totalDist < trajectoryMaxDistance)
    (hcurve : st.curve = 0)
    (hdir : st.dirX * st.dirX + st.dirY * st.dirY = 1)
    (hs1 : sqrtF 1 = 1)
    (hx1 : innerLeftT ≤ st.x + st.dirX * trajStepSize)
    (hx2 : st.x + st.dirX * trajStepSize ≤ innerRightT)
    (hy : st.y + st.dirY * trajStepSize < innerTopT) :
    trajLoop sqrtF balls (fuel + 1) st =
      ((⟨st.x, st.y, st.bounces⟩ : TrajPoint) ::
          (trajLoop sqrtF balls fuel
            ⟨st.x + st.dirX * trajStepSize, innerTopT, st.dirX, -st.dirY,
              st.bounces + 1, st.totalDist + trajStepSize, 0⟩).1,
        (trajLoop sqrtF balls fuel
          ⟨st.x + st.dirX * trajStepSize, innerTopT, st.dirX, -st.dirY,
            st.bounces + 1, st.totalDist + trajStepSize, 0⟩).2) := by
  have hdir1 : st.dirX * st.dirX + -st.dirY * -st.dirY = 1 := by
    rw [neg_mul_neg]; exact hdir
  simp only [trajLoop, if_pos hg, hcurve, trajCurve_zero,
    trajBounceX_none st.dirX st.bounces _ hx1 hx2,
    trajBounceY_top st.dirY st.bounces _ hy,
    Nat.succ_ne_zero, ite_false, if_false,
    hdir1, hs1, div_one]

/-- Single-crossing reflection step at the bottom cushion boundary. -/
lemma trajLoop_step_bottom (sqrtF : ℚ → ℚ) (balls : List (Ball × String))
    (fuel : ℕ) (st : TrajState)
    (hg : st.bounces ≤ trajectoryMaxBounces ∧ st.totalDist < trajectoryMaxDistance)
    (hcurve : st.curve = 0)
    (hdir : st.dirX * st.dirX + st.dirY * st.dirY = 1)
    (hs1 : sqrtF 1 = 1)
    (hx1 : innerLeftT ≤ st.x + st.dirX * trajStepSize)
    (hx2 : st.x + st.dirX * trajStepSize ≤ innerRightT)
    (hy : innerBottomT < st.y + st.dirY * trajStepSize) :
    trajLoop sqrtF balls (fuel + 1) st =
      ((⟨st.x, st.y, st.bounces⟩ : TrajPoint) ::
          (trajLoop sqrtF balls fuel
            ⟨st.x + st.dirX * trajStepSize, innerBottomT, st.dirX, -st.dirY,
              st.bounces + 1, st.totalDist + trajStepSize, 0⟩).1,
        (trajLoop sqrtF balls fuel
          ⟨st.x + st.dirX * trajStepSize, innerBottomT, st.dirX, -st.dirY,
            st.bounces + 1, st.totalDist + trajStepSize, 0⟩).2) := by
  have hdir1 : st.dirX * st.dirX + -st.dirY * -st.dirY = 1 := by
    rw [neg_mul_neg]; exact hdir
  simp only [trajLoop, if_pos hg, hcurve, trajCurve_zero,
    trajBounceX_none st.dirX st.bounces _ hx1 hx2,
    trajBounceY_bottom st.dirY st.bounces _ hy,
    Nat.succ_ne_zero, ite_false, if_false,
    hdir1, hs1, div_one]

lemma calculateTrajectoryPreviewRun_points (o : MathOracle)
    (cueAngle spinX spinY cueX cueY : ℚ) (balls : List (Ball × String)) :
    (calculateTrajectoryPreviewRun o cueAngle spinX spinY cueX cueY balls).points =
      (trajLoop o.sqrt balls trajFuel
        ⟨cueX, cueY, o.cos cueAngle, o.sin cueAngle, 0, 0, spinX * (15/100)⟩).1 := by
  rfl

/-- C2.  Cushion reflection in the trajectory march, for a unit direction
and zero side spin (zero curve): whenever the advanced point crosses one
of the four interior cushion boundaries (and only that one), the march
clamps the point to that boundary, negates exactly the direction
component perpendicular to the crossed cushion (the other component is
unchanged), and increments the bounce counter by exactly one; moreover no
point of any computed forecast ever carries a bounce tag above the
configured maximum of 3. -/
theorem C2_cushion_reflection (sqrtF : ℚ → ℚ) (balls : List (Ball × String))
    (fuel : ℕ) (st : TrajState)
    (hg : st.bounces ≤ trajectoryMaxBounces ∧ st.totalDist < trajectoryMaxDistance)
    (hcurve : st.curve = 0)
    (hdir : st.dirX * st.dirX + st.dirY * st.dirY = 1)
    (hs1 : sqrtF 1 = 1) :
    (st.x + st.dirX * trajStepSize < innerLeftT →
      innerTopT ≤ st.y + st.dirY * trajStepSize →
      st.y + st.dirY * trajStepSize ≤ innerBottomT →
      trajLoop sqrtF balls (fuel + 1) st =
        ((⟨st.x, st.y, st.bounces⟩ : TrajPoint) ::
            (trajLoop sqrtF balls fuel
              ⟨innerLeftT, st.y + st.dirY * trajStepSize, -st.dirX, st.dirY,
                st.bounces + 1, st.totalDist + trajStepSize, 0⟩).1,
          (trajLoop sqrtF balls fuel
            ⟨innerLeftT, st.y + st.dirY * trajStepSize, -st.dirX, st.dirY,
              st.bounces + 1, st.totalDist + trajStepSize, 0⟩).2)) ∧
    (innerRightT < st.x + st.dirX * trajStepSize →
      innerTopT ≤ st.y + st.dirY * trajStepSize →
      st.y + st.dirY * trajStepSize ≤ innerBottomT →
      trajLoop sqrtF balls (fuel + 1) st =
        ((⟨st.x, st.y, st.bounces⟩ : TrajPoint) ::
            (trajLoop sqrtF balls fuel
              ⟨innerRightT, st.y + st.dirY * trajStepSize, -st.dirX, st.dirY,
                st.bounces + 1, st.totalDist + trajStepSize, 0⟩).1,
          (trajLoop sqrtF balls fuel
            ⟨innerRightT, st.y + st.dirY * trajStepSize, -st.dirX, st.dirY,
              st.bounces + 1, st.totalDist + trajStepSize, 0⟩).2)) ∧
    (innerLeftT ≤ st.x + st.dirX * trajStepSize →
      st.x + st.dirX * trajStepSize ≤ innerRightT →
      st.y + st.dirY * trajStepSize < innerTopT →
      trajLoop sqrtF balls (fuel + 1) st =
        ((⟨st.x, st.y, st.bounces⟩ : TrajPoint) ::
            (trajLoop sqrtF balls fuel
              ⟨st.x + st.dirX * trajStepSize, innerTopT, st.dirX, -st.dirY,
                st.bounces + 1, st.totalDist + trajStepSize, 0⟩).1,
          (trajLoop sqrtF balls fuel
            ⟨st.x + st.dirX * trajStepSize, innerTopT, st.dirX, -st.dirY,
              st.bounces + 1, st.totalDist + trajStepSize, 0⟩).2)) ∧
    (innerLeftT ≤ st.x + st.dirX * trajStepSize →
      st.x + st.dirX * trajStepSize ≤ innerRightT →
      innerBottomT < st.y + st.dirY * trajStepSize →
      trajLoop sqrtF balls (fuel + 1) st =
        ((⟨st.x, st.y, st.bounces⟩ : TrajPoint) ::
            (trajLoop sqrtF balls fuel
              ⟨st.x + st.dirX * trajStepSize, innerBottomT, st.dirX, -st.dirY,
                st.bounces + 1, st.totalDist + trajStepSize, 0⟩).1,
          (trajLoop sqrtF balls fuel
            ⟨st.x + st.dirX * trajStepSize, innerBottomT, st.dirX, -st.dirY,
              st.bounces + 1, st.totalDist + trajStepSize, 0⟩).2)) ∧
    (∀ (o : MathOracle) (cueAngle spinX spinY cueX cueY : ℚ)
        (otherBalls : List (Ball × String)),
      ∀ p ∈ (calculateTrajectoryPreviewRun o cueAngle spinX spinY cueX cueY
          otherBalls).points,
        p.bounce ≤ trajectoryMaxBounces) := by
  refine ⟨fun hx hy1 hy2 => trajLoop_step_left sqrtF balls fuel st hg hcurve hdir hs1 hx hy1 hy2,
    fun hx hy1 hy2 => trajLoop_step_right sqrtF balls fuel st hg hcurve hdir hs1 hx hy1 hy2,
    fun hx1 hx2 hy => trajLoop_step_top sqrtF balls fuel st hg hcurve hdir hs1 hx1 hx2 hy,
    fun hx1 hx2 hy => trajLoop_step_bottom sqrtF balls fuel st hg hcurve hdir hs1 hx1 hx2 hy,
    fun o cueAngle spinX spinY cueX cueY otherBalls p hp => ?_⟩
  rw [calculateTrajectoryPreviewRun_points] at hp
  exact trajLoop_bounce_le o.sqrt otherBalls trajFuel _ p hp

/-- Square-root table for the C2 witness: the march renormalises a unit
direction, so `sqrt` is only consulted at `1`. -/
def c2sqrt : ℚ → ℚ := fun q => if q = 1 then 1 else 0

/-- Witness for C2: a cue ball at `(133, 300)` marched straight left
crosses the left interior boundary `131.25` on the first step; the
recorded point keeps bounce tag `0` and the march stops (fuel 1) after
reflecting. -/
theorem C2_cushion_reflection_witness :
    trajLoop c2sqrt [] 1 ⟨133, 300, -1, 0, 0, 0, 0⟩ =
      ([(⟨133, 300, 0⟩ : TrajPoint)], none) ∧ (0:ℕ) ≤ trajectoryMaxBounces := by
  have h := C2_cushion_reflection c2sqrt [] 0 ⟨133, 300, -1, 0, 0, 0, 0⟩
    ⟨by norm_num [trajectoryMaxBounces], by norm_num [trajectoryMaxDistance]⟩
    rfl (by norm_num) (by norm_num [c2sqrt])
  have hL := h.1
    (by norm_num [innerLeftT, tableX, canvasWidth, tableLength, cushionThickness,
      ballRadius, ballDiameter, tableWidth, trajStepSize])
    (by norm_num [innerTopT, tableY, canvasHeight, cushionThickness,
      ballRadius, ballDiameter, tableWidth, tableLength, trajStepSize])
    (by norm_num [innerBottomT, tableY, canvasHeight, cushionThickness,
      ballRadius, ballDiameter, tableWidth, tableLength, trajStepSize])
  rw [hL]
  exact ⟨by simp [trajLoop], by norm_num⟩

lemma trajLoop_stop_of_dist (sqrtF : ℚ → ℚ) (balls : List (Ball × String))
    (fuel : ℕ) (st : TrajState) (h : trajectoryMaxDistance ≤ st.totalDist) :
    trajLoop sqrtF balls fuel st = ([], none) := by
  cases fuel with
  | zero => rfl
  | succ n =>
    simp only [trajLoop]
    rw [if_neg]
    rintro ⟨-, h2⟩
    exact absurd h2 (not_lt.mpr h)

lemma trajLoop_stop_of_bounces (sqrtF : ℚ → ℚ) (balls : List (Ball × String))
    (fuel : ℕ) (st : TrajState) (h : trajectoryMaxBounces < st.bounces) :
    trajLoop sqrtF balls fuel st = ([], none) := by
  cases fuel with
  | zero => rfl
  | succ n =>
    simp only [trajLoop]
    rw [if_neg]
    rintro ⟨h1, -⟩
    exact absurd h1 (not_le.mpr h)

/-- C10 (amended).  The march advances in fixed steps of `stepSize = 5`
pixels — which is `2/5` (40%) of the ball diameter, below one ball radius
but far above 1–2% of the diameter — and the loop stops as soon as the
travelled distance reaches the 800-pixel maximum or the bounce count
exceeds the maximum of 3. -/
theorem C10_march_parameters :
    trajStepSize = (2/5) * ballDiameter ∧
    trajStepSize < ballRadius ∧
    trajectoryMaxDistance = 800 ∧
    trajectoryMaxBounces = 3 ∧
    (∀ (sqrtF : ℚ → ℚ) (balls : List (Ball × String)) (fuel : ℕ) (st : TrajState),
      trajectoryMaxDistance ≤ st.totalDist →
        trajLoop sqrtF balls fuel st = ([], none)) ∧
    (∀ (sqrtF : ℚ → ℚ) (balls : List (Ball × String)) (fuel : ℕ) (st : TrajState),
      trajectoryMaxBounces < st.bounces →
        trajLoop sqrtF balls fuel st = ([], none)) := by
  refine ⟨?_, ?_, rfl, rfl, trajLoop_stop_of_dist, trajLoop_stop_of_bounces⟩
  · norm_num [trajStepSize, ballDiameter, tableWidth, tableLength]
  · norm_num [trajStepSize, ballRadius, ballDiameter, tableWidth, tableLength]

/-- Witness for C10: a march state that has already travelled the maximum
distance produces no further points. -/
theorem C10_march_parameters_witness :
    trajLoop (fun _ => 0) [] 7 ⟨0, 0, 1, 0, 0, 800, 0⟩ = ([], none) ∧
    trajectoryMaxDistance ≤ 800 :=
  ⟨C10_march_parameters.2.2.2.2.1 (fun _ => 0) [] 7 ⟨0, 0, 1, 0, 0, 800, 0⟩
      (by norm_num [trajectoryMaxDistance]),
    by norm_num [trajectoryMaxDistance]⟩

/-- Counterexample for C10 as stated: the step length is 5 pixels, which
is 40% of the ball diameter `25/2` and 80% of the ball radius `25/4` —
not on the order of 1–2% of the diameter, and not much smaller than the
radius. -/
theorem C10_step_not_tiny :
    trajStepSize = 5 ∧ ballDiameter = 25/2 ∧ ballRadius = 25/4 ∧
    ¬ trajStepSize ≤ (2/100) * ballDiameter := by
  norm_num [trajStepSize, ballDiameter, ballRadius, tableWidth, tableLength]

/-- C3.  `calculateDeflectionPaths` records exactly two rays: the struck
ball's ray starts at the struck ball's centre and points along the unit
vector from the contact point towards that centre (unit norm, positively
proportional to the contact-to-centre vector); the cue ball's ray starts
at the contact point and points at the line-of-centres angle plus
`HALF_PI` (+90°) plus the spin correction `spinControl.y * 0.3`.  The
correction is strictly monotone in the vertical spin component and
vanishes at zero spin, so back spin (`spinControl.y > 0` — the spin UI
maps a click below the centre of the cue-ball diagram to positive `y`)
increases the deflection offset from the perpendicular and top spin
(`spinControl.y < 0`) decreases it.  Hypotheses: the ambient `sqrt`
returns the exact positive square root of the squared contact-to-centre
distance. -/
theorem C3_deflection_paths (o : MathOracle) (spinY : ℚ) (hit : HitInfo)
    (hlen : 0 < o.sqrt ((hit.ballX - hit.hitX) * (hit.ballX - hit.hitX) +
        (hit.ballY - hit.hitY) * (hit.ballY - hit.hitY)))
    (hsq : o.sqrt ((hit.ballX - hit.hitX) * (hit.ballX - hit.hitX) +
          (hit.ballY - hit.hitY) * (hit.ballY - hit.hitY)) *
        o.sqrt ((hit.ballX - hit.hitX) * (hit.ballX - hit.hitX) +
          (hit.ballY - hit.hitY) * (hit.ballY - hit.hitY)) =
      (hit.ballX - hit.hitX) * (hit.ballX - hit.hitX) +
        (hit.ballY - hit.hitY) * (hit.ballY - hit.hitY)) :
    ∃ targetRay cueRay : DeflectRay,
      calculateDeflectionPaths o spinY hit = [targetRay, cueRay] ∧
      targetRay.startX = hit.ballX ∧ targetRay.startY = hit.ballY ∧
      targetRay.dirX * targetRay.dirX + targetRay.dirY * targetRay.dirY = 1 ∧
      (∃ k : ℚ, 0 < k ∧ hit.ballX - hit.hitX = k * targetRay.dirX ∧
        hit.ballY - hit.hitY = k * targetRay.dirY) ∧
      cueRay.startX = hit.hitX ∧ cueRay.startY = hit.hitY ∧
      cueRay.dirX = o.cos (o.atan2 targetRay.dirY targetRay.dirX + o.halfPi +
        deflectSpinEffect spinY) ∧
      cueRay.dirY = o.sin (o.atan2 targetRay.dirY targetRay.dirX + o.halfPi +
        deflectSpinEffect spinY) ∧
      StrictMono deflectSpinEffect ∧ deflectSpinEffect 0 = 0 := by
  set L := o.sqrt ((hit.ballX - hit.hitX) * (hit.ballX - hit.hitX) +
    (hit.ballY - hit.hitY) * (hit.ballY - hit.hitY)) with hL
  have hL0 : L ≠ 0 := ne_of_gt hlen
  refine ⟨⟨hit.ballX, hit.ballY, (hit.ballX - hit.hitX) / L,
      (hit.ballY - hit.hitY) / L, hit.color, 80⟩,
    ⟨hit.hitX, hit.hitY,
      o.cos (o.atan2 ((hit.ballY - hit.hitY) / L) ((hit.ballX - hit.hitX) / L) +
        o.halfPi + deflectSpinEffect spinY),
      o.sin (o.atan2 ((hit.ballY - hit.hitY) / L) ((hit.ballX - hit.hitX) / L) +
        o.halfPi + deflectSpinEffect spinY), cueHex, 50⟩,
    rfl, rfl, rfl, ?_, ⟨L, hlen, ?_, ?_⟩, rfl, rfl, rfl, rfl, ?_, ?_⟩
  · field_simp
    linarith [hsq]
  · rw [mul_div_cancel₀ _ hL0]
  · rw [mul_div_cancel₀ _ hL0]
  · intro a b hab
    have : a * (3/10) < b * (3/10) := by
      exact mul_lt_mul_of_pos_right hab (by norm_num)
    simpa [deflectSpinEffect] using this
  · simp [deflectSpinEffect]

/-- Oracle for the C3 witness: `sqrt 25 = 5`; the trigonometric entries
are irrelevant to the recorded structure and set to zero functions. -/
def c3oracle : MathOracle :=
  ⟨fun q => if q = 25 then 5 else 0, fun _ => 0, fun _ => 0, fun _ _ => 0, 0⟩

/-- Witness for C3: a contact at the origin with the struck ball centred
at `(3,4)` (distance 5). -/
theorem C3_deflection_paths_witness :
    0 < c3oracle.sqrt ((3 - 0) * (3 - 0) + (4 - 0) * (4 - 0)) ∧
      (∃ targetRay cueRay : DeflectRay,
        calculateDeflectionPaths c3oracle 0 ⟨3, 4, "#D32F2F", 0, 0, 5⟩ =
          [targetRay, cueRay] ∧
        targetRay.startX = 3 ∧ targetRay.startY = 4 ∧
        targetRay.dirX * targetRay.dirX + targetRay.dirY * targetRay.dirY = 1 ∧
        (∃ k : ℚ, 0 < k ∧ (3:ℚ) - 0 = k * targetRay.dirX ∧
          (4:ℚ) - 0 = k * targetRay.dirY) ∧
        cueRay.startX = 0 ∧ cueRay.startY = 0 ∧
        cueRay.dirX = c3oracle.cos (c3oracle.atan2 targetRay.dirY targetRay.dirX +
          c3oracle.halfPi + deflectSpinEffect 0) ∧
        cueRay.dirY = c3oracle.sin (c3oracle.atan2 targetRay.dirY targetRay.dirX +
          c3oracle.halfPi + deflectSpinEffect 0) ∧
        StrictMono deflectSpinEffect ∧ deflectSpinEffect 0 = 0) :=
  ⟨by norm_num [c3oracle],
    C3_deflection_paths c3oracle 0 ⟨3, 4, "#D32F2F", 0, 0, 5⟩
      (by norm_num [c3oracle]) (by norm_num [c3oracle])⟩

/-- C6.  The trajectory predictor is pure with respect to the real game
state: running `calculateTrajectoryPreview` (which includes the
ball-collision search and the deflection computation) leaves the cue
ball, every red ball, every coloured ball — with all their fields — and
the cue stick, spin, and session flags unchanged; only the
`trajectoryPreview` forecast is written. -/
theorem C6_predictor_pure (o : MathOracle) (s : GameState) :
    (calculateTrajectoryPreviewS o s).cueBall = s.cueBall ∧
    (calculateTrajectoryPreviewS o s).redBalls = s.redBalls ∧
    (calculateTrajectoryPreviewS o s).coloureds = s.coloureds ∧
    (calculateTrajectoryPreviewS o s).cue = s.cue ∧
    (calculateTrajectoryPreviewS o s).spin = s.spin ∧
    (calculateTrajectoryPreviewS o s).cueBallPlaced = s.cueBallPlaced ∧
    (calculateTrajectoryPreviewS o s).isShooting = s.isShooting ∧
    (calculateTrajectoryPreviewS o s).canShoot = s.canShoot := by
  rcases h : s.cueBall with _ | b <;>
    simp [calculateTrajectoryPreviewS, h]

/-- `var pocketRadius = pocketSize * 0.6` in `checkPocketCollisions`. -/
def pocketRadius : ℚ := pocketSize * (6/10)

/-- Capture test against one pocket; embeds
`sqrt((x-px)² + (y-py)²) < pocketRadius` (squares both sides). -/
def ballInPocketAt (b : Ball) (p : ℚ × ℚ) : Bool :=
  decide ((b.x - p.1) ^ 2 + (b.y - p.2) ^ 2 < pocketRadius ^ 2)

/-- A ball is captured when some pocket's test fires (the source loops
over `pocketPositions` and breaks at the first hit). -/
def ballInPocket (b : Ball) : Bool := pocketPositions.any (ballInPocketAt b)

/-- Re-spot step of `checkPocketCollisions` for one coloured ball:
`Body.setPosition(ball, spotPos); Body.setVelocity(ball, {x:0, y:0})`. -/
def respotColoured (c : Colour) (b : Ball) : Ball :=
  if ballInPocket b then
    { b with x := (spotPositions c).1, y := (spotPositions c).2, vx := 0, vy := 0 }
  else b

/-- Embedding of `checkPocketCollisions()`: the cue ball is removed (and
`cueBallPlaced` cleared) when captured; captured red balls are removed
from the array; captured coloured balls are re-spotted with zero
velocity. -/
def checkPocketCollisions (s : GameState) : GameState :=
  let s1 :=
    match s.cueBall with
    | some b =>
      if ballInPocket b then { s with cueBall := none, cueBallPlaced := false }
      else s
    | none => s
  let s2 := { s1 with redBalls := s1.redBalls.filter (fun b => !ballInPocket b) }
  { s2 with coloureds :=
      ⟨respotColoured .yellow s2.coloureds.yellow,
        respotColoured .green s2.coloureds.green,
        respotColoured .brown s2.coloureds.brown,
        respotColoured .blue s2.coloureds.blue,
        respotColoured .pink s2.coloureds.pink,
        respotColoured .black s2.coloureds.black⟩ }

/-- Whether the current cue ball is captured by some pocket. -/
def cueCaptured (s : GameState) : Bool :=
  match s.cueBall with
  | some b => ballInPocket b
  | none => false

/-- Number of balls on the table: the optional cue ball, the red array,
and the six coloured balls (which are never removed). -/
def liveBallCount (s : GameState) : ℕ :=
  (if s.cueBall.isSome then 1 else 0) + s.redBalls.length + 6

/-- `var threshold = 0.15` in `checkBallsMoving`. -/
def stopThreshold : ℚ := 15/100

/-- Embeds `Matter.Vector.magnitude(velocity) > 0.15` (squares both
sides). -/
def isMovingBall (b : Ball) : Bool :=
  decide (stopThreshold ^ 2 < b.vx ^ 2 + b.vy ^ 2)

/-- The `anyMoving` scan of `checkBallsMoving`: cue ball, then reds, then
coloureds (the source short-circuits, which `||` reproduces). -/
def anyBallMoving (s : GameState) : Bool :=
  (match s.cueBall with
    | some b => isMovingBall b
    | none => false) ||
    s.redBalls.any isMovingBall ||
    (colouredBallsList s.coloureds).any isMovingBall

/-- Embedding of `checkBallsMoving()`: while a shot is in flight and no
ball moves faster than the threshold, clear `isShooting`, re-enable
shooting, and stop the replay recording. -/
def checkBallsMoving (s : GameState) : GameState :=
  if s.isShooting && !anyBallMoving s then
    { s with isShooting := false, canShoot := true, recording := false }
  else s

/-- Embeds `isInsideSpinControl(x, y)`:
`sqrt((x-uiX)² + (y-uiY)²) <= uiRadius` (squares both sides). -/
def isInsideSpinControl (x y : ℚ) : Bool :=
  decide ((x - spinUiX) ^ 2 + (y - spinUiY) ^ 2 ≤ spinUiRadius ^ 2)

/-- p5.js `constrain(v, lo, hi)`. -/
def constrain (v lo hi : ℚ) : ℚ := max lo (min v hi)

/-- Embedding of `updateSpinFromMouse()`. -/
def updateSpinFromMouse (mouseX mouseY : ℚ) (s : GameState) : GameState :=
  { s with spin := { s.spin with
      x := constrain ((mouseX - spinUiX) / spinUiRadius) (-1) 1,
      y := constrain ((mouseY - spinUiY) / spinUiRadius) (-1) 1 } }

/-- `innerBottom` local of `isInDZone`. -/
def dZoneInnerBottom : ℚ := tableY + tableWidth - cushionThickness

/-- `baulkY` local of `isInDZone`:
`innerBottom - playHeight * 0.2` with `playHeight = tableWidth - cushionThickness*2`. -/
def dZoneBaulkY : ℚ := dZoneInnerBottom - (tableWidth - cushionThickness * 2) * (2/10)

/-- `centerX` local of `isInDZone`. -/
def dZoneCenterX : ℚ := tableX + tableLength / 2

/-- Embedding of `isInDZone(x, y)` with its own local baulk-line
computation (the locals are the named constants above); the distance
test embeds `sqrt((x-centerX)² + (y-baulkY)²) <= dRadius` (squares both
sides). -/
def isInDZone (x y : ℚ) : Bool :=
  if y < dZoneBaulkY then false
  else if dZoneInnerBottom < y then false
  else if (x - dZoneCenterX) ^ 2 + (y - dZoneBaulkY) ^ 2 ≤ dRadius ^ 2 then
    decide (tableX + cushionThickness ≤ x ∧
      x ≤ tableX + tableLength - cushionThickness)
  else false

/-- Embedding of `isOverlappingBall(x, y)`: any coloured or red ball
closer than `ballDiameter` (`checkRadius`); embeds
`sqrt(…) < checkRadius` (squares both sides). -/
def isOverlappingBall (s : GameState) (x y : ℚ) : Bool :=
  (colouredBallsList s.coloureds).any
      (fun b => decide ((x - b.x) ^ 2 + (y - b.y) ^ 2 < ballDiameter ^ 2)) ||
    s.redBalls.any
      (fun b => decide ((x - b.x) ^ 2 + (y - b.y) ^ 2 < ballDiameter ^ 2))

/-- Embedding of `createCueBall(posX, posY)`: a fresh ball at the given
position with the standard options. -/
def createCueBall (posX posY : ℚ) (s : GameState) : GameState :=
  { s with
      cueBall := some ⟨posX, posY, 0, 0, BALL_FRICTION_AIR, 0, 0, 0⟩
      cueBallPlaced := true }

/-- Embedding of `mousePressed()`: spin-control hit test first; then, if
the cue ball is not yet placed, the D-zone/overlap-guarded placement;
otherwise, if shooting is allowed, lock the aim angle and start the
power drag. -/
def mousePressed (o : MathOracle) (mouseX mouseY : ℚ) (s : GameState) : GameState :=
  if isInsideSpinControl mouseX mouseY then
    updateSpinFromMouse mouseX mouseY
      { s with spin := { s.spin with isDragging := true } }
  else if !s.cueBallPlaced then
    if isInDZone mouseX mouseY && !isOverlappingBall s mouseX mouseY then
      createCueBall mouseX mouseY s
    else s
  else if s.canShoot then
    match s.cueBall with
    | some b =>
      { s with cue := { s.cue with
          angle := o.atan2 (mouseY - b.y) (mouseX - b.x),
          dragStartX := mouseX, dragStartY := mouseY,
          isAiming := true, pullBack := 0 } }
    | none => s
  else s

/-- Embedding of `shootCueBall()`: power from the pull-back via
`map(pullBack, 0, maxPullBack, 0, 0.5)`, a side-spin rotation of the
force vector, a top/back-spin modulation of `frictionAir`, the force
accumulated on the cue ball, angular velocity set, and the session moved
into flight.  (The impact visual effect is rendering and not modelled;
`powerNormalized` feeds only that effect.)  The source dereferences the
cue ball unconditionally; its callers guard on existence, and the
`none` branch returns the state unchanged. -/
def shootCueBall (cosF sinF : ℚ → ℚ) (s : GameState) : GameState :=
  match s.cueBall with
  | none => s
  | some b =>
    let power := s.cue.pullBack / s.cue.maxPullBack * (1/2)
    let forceX := cosF s.cue.angle * power
    let forceY := sinF s.cue.angle * power
    let sideSpinEffect := s.spin.x * (8/100) * power
    let forceX := forceX + (-(sinF s.cue.angle)) * sideSpinEffect
    let forceY := forceY + cosF s.cue.angle * sideSpinEffect
    let spinFrictionMod := 1 + s.spin.y * (3/10)
    let b1 := { b with
      frictionAir := BALL_FRICTION_AIR * spinFrictionMod,
      forceX := b.forceX + forceX,
      forceY := b.forceY + forceY,
      angularVelocity := s.spin.x * (2/10) }
    { s with cueBall := some b1, isShooting := true, canShoot := false }

/-- Embedding of `mouseReleased()`: a release while dragging the spin
control only stops that drag; otherwise, when aiming with a cue ball and
pull-back above the minimum threshold 5, the shot fires (replay
recording starts just before); in this branch-free tail the aim flag and
pull-back are always reset. -/
def mouseReleased (cosF sinF : ℚ → ℚ) (s : GameState) : GameState :=
  if s.spin.isDragging then
    { s with spin := { s.spin with isDragging := false } }
  else
    let s1 :=
      if s.cue.isAiming = true ∧ s.cueBall.isSome = true ∧ 5 < s.cue.pullBack then
        shootCueBall cosF sinF { s with recording := true }
      else s
    { s1 with cue := { s1.cue with isAiming := false, pullBack := 0 } }

/-- One pass of the per-frame `draw()` loop restricted to the modelled
core, in source order: the external physics engine advances the balls
(`Engine.update`, abstracted as an arbitrary transformation `phys` of the
ball registries), then pocket capture, then the settling check, then —
only in an aim-eligible state — the trajectory prediction. -/
def drawStepCore (o : MathOracle)
    (phys : Option Ball × List Ball × Coloureds → Option Ball × List Ball × Coloureds)
    (s : GameState) : GameState :=
  let moved := phys (s.cueBall, s.redBalls, s.coloureds)
  let s1 := { s with cueBall := moved.1, redBalls := moved.2.1, coloureds := moved.2.2 }
  let s2 := checkPocketCollisions s1
  let s3 := checkBallsMoving s2
  if s3.cueBallPlaced && s3.canShoot && s3.cueBall.isSome then
    calculateTrajectoryPreviewS o s3
  else s3

/-- All balls on the table, in the scan order of `checkBallsMoving`. -/
def liveBallsList (s : GameState) : List Ball :=
  (match s.cueBall with
    | some b => [b]
    | none => []) ++ s.redBalls ++ colouredBallsList s.coloureds

lemma checkPocketCollisions_isShooting (s : GameState) :
    (checkPocketCollisions s).isShooting = s.isShooting := by
  obtain ⟨cb, reds, cols, cue, spin, placed, shoot, can, rec, traj⟩ := s
  cases cb with
  | none => rfl
  | some b =>
    by_cases hb : ballInPocket b = true <;>
      simp [checkPocketCollisions, hb]

lemma checkBallsMoving_not_start (s : GameState) (h : s.isShooting = false) :
    (checkBallsMoving s).isShooting = false := by
  unfold checkBallsMoving
  rw [h]
  simpa using h

lemma calculateTrajectoryPreviewS_isShooting (o : MathOracle) (s : GameState) :
    (calculateTrajectoryPreviewS o s).isShooting = s.isShooting := by
  rcases h : s.cueBall with _ | b <;> simp [calculateTrajectoryPreviewS, h]

/-- C7.  Settling: the `anyMoving` scan is false exactly when every live
ball's squared speed is at most the squared stopping threshold (i.e. all
speeds are below the threshold); when that happens while a shot is in
flight, one `checkBallsMoving` evaluation clears the in-flight flag and
re-enables shooting; and no phase of the per-frame loop (physics advance,
pocket capture, settling check, trajectory prediction) ever sets the
in-flight flag — only firing a new shot does. -/
theorem C7_settling_transition :
    (∀ s : GameState, anyBallMoving s = false ↔
      ∀ b ∈ liveBallsList s, b.vx ^ 2 + b.vy ^ 2 ≤ stopThreshold ^ 2) ∧
    (∀ s : GameState, s.isShooting = true → anyBallMoving s = false →
      (checkBallsMoving s).isShooting = false ∧
        (checkBallsMoving s).canShoot = true) ∧
    (∀ (o : MathOracle)
        (phys : Option Ball × List Ball × Coloureds →
          Option Ball × List Ball × Coloureds)
        (s : GameState), s.isShooting = false →
      (drawStepCore o phys s).isShooting = false) := by
  refine ⟨?_, ?_, ?_⟩
  · intro s
    obtain ⟨cb, reds, cols, cue, spin, placed, shoot, can, rec, traj⟩ := s
    cases cb <;>
      · simp [anyBallMoving, liveBallsList, isMovingBall, List.any_eq_false,
          not_lt, List.mem_append, List.mem_singleton, or_imp, forall_and,
          forall_eq]
        try tauto
  · intro s h1 h2
    simp [checkBallsMoving, h1, h2]
  · intro o phys s h
    simp only [drawStepCore]
    have h2 : (checkBallsMoving (checkPocketCollisions
        { s with
            cueBall := (phys (s.cueBall, s.redBalls, s.coloureds)).1
            redBalls := (phys (s.cueBall, s.redBalls, s.coloureds)).2.1
            coloureds := (phys (s.cueBall, s.redBalls, s.coloureds)).2.2 })).isShooting
          = false := by
      apply checkBallsMoving_not_start
      rw [checkPocketCollisions_isShooting]
      exact h
    split
    · rw [calculateTrajectoryPreviewS_isShooting]
      exact h2
    · exact h2

/-- A coloured ball resting on its spot. -/
def spotBall (c : Colour) : Ball :=
  ⟨(spotPositions c).1, (spotPositions c).2, 0, 0, BALL_FRICTION_AIR, 0, 0, 0⟩

/-- The six coloured balls on their spots, all stationary. -/
def colouredsAtSpots : Coloureds :=
  ⟨spotBall .yellow, spotBall .green, spotBall .brown,
    spotBall .blue, spotBall .pink, spotBall .black⟩

/-- A stationary cue ball inside the play area. -/
def aimBall : Ball := ⟨300, 300, 0, 0, BALL_FRICTION_AIR, 0, 0, 0⟩

/-- A state in flight with every ball stationary. -/
def settledFlightState : GameState :=
  { cueBall := some aimBall
    redBalls := []
    coloureds := colouredsAtSpots
    cue := ⟨0, 280, 0, 120, false, 10, 0, 0⟩
    spin := ⟨0, 0, false⟩
    cueBallPlaced := true
    isShooting := true
    canShoot := false
    recording := true
    trajectory := ⟨[], none, []⟩ }

/-- Witness for C7: in `settledFlightState` no ball moves, and one
settling evaluation leaves the in-flight state and re-enables shooting. -/
theorem C7_settling_transition_witness :
    anyBallMoving settledFlightState = false ∧
    (checkBallsMoving settledFlightState).isShooting = false ∧
    (checkBallsMoving settledFlightState).canShoot = true := by
  have hmv : anyBallMoving settledFlightState = false := by
    norm_num [anyBallMoving, settledFlightState, isMovingBall, aimBall,
      colouredBallsList, colourList, colouredsAtSpots, spotBall, Coloureds.get,
      stopThreshold]
  exact ⟨hmv, C7_settling_transition.2.1 settledFlightState rfl hmv⟩

/-- C8.  A release gesture (while not dragging the spin control and with
no shot already in flight): the shot fires — session moves in flight and
shooting is disabled — exactly when the player is aiming, a cue ball
exists, and the pull-back exceeds the minimum threshold 5; otherwise
nothing fires and no ball state changes; and in every case the release
clears the aim flag and resets the pull-back to 0. -/
theorem C8_release_gesture (cosF sinF : ℚ → ℚ) (s : GameState)
    (hdrag : s.spin.isDragging = false) (hflight : s.isShooting = false) :
    ((mouseReleased cosF sinF s).isShooting = true ↔
      (s.cue.isAiming = true ∧ s.cueBall.isSome = true ∧ 5 < s.cue.pullBack)) ∧
    (mouseReleased cosF sinF s).cue.isAiming = false ∧
    (mouseReleased cosF sinF s).cue.pullBack = 0 ∧
    (¬(s.cue.isAiming = true ∧ s.cueBall.isSome = true ∧ 5 < s.cue.pullBack) →
      (mouseReleased cosF sinF s).cueBall = s.cueBall ∧
      (mouseReleased cosF sinF s).redBalls = s.redBalls ∧
      (mouseReleased cosF sinF s).coloureds = s.coloureds ∧
      (mouseReleased cosF sinF s).isShooting = false ∧
      (mouseReleased cosF sinF s).canShoot = s.canShoot) ∧
    ((s.cue.isAiming = true ∧ s.cueBall.isSome = true ∧ 5 < s.cue.pullBack) →
      (mouseReleased cosF sinF s).canShoot = false) := by
  by_cases hc : s.cue.isAiming = true ∧ s.cueBall.isSome = true ∧ 5 < s.cue.pullBack
  · obtain ⟨b, hb⟩ := Option.isSome_iff_exists.mp hc.2.1
    simp [mouseReleased, shootCueBall, hdrag, hc, hb]
  · simp [mouseReleased, shootCueBall, hdrag, hc, hflight]

/-- An aim-ready state: cue ball placed, aim locked, pull-back 50, side
and back spin `1/2` each. -/
def aimState : GameState :=
  { cueBall := some aimBall
    redBalls := []
    coloureds := colouredsAtSpots
    cue := ⟨0, 280, 50, 120, true, 10, 0, 0⟩
    spin := ⟨1/2, 1/2, false⟩
    cueBallPlaced := true
    isShooting := false
    canShoot := true
    recording := false
    trajectory := ⟨[], none, []⟩ }

/-- Witness for C8: releasing in `aimState` (pull-back 50 > 5) fires the
shot and resets the aim flag and pull-back. -/
theorem C8_release_gesture_witness :
    (mouseReleased (fun _ => 1) (fun _ => 0) aimState).isShooting = true ∧
    (mouseReleased (fun _ => 1) (fun _ => 0) aimState).cue.isAiming = false ∧
    (mouseReleased (fun _ => 1) (fun _ => 0) aimState).cue.pullBack = 0 := by
  have h := C8_release_gesture (fun _ => 1) (fun _ => 0) aimState rfl rfl
  exact ⟨h.1.mpr ⟨rfl, rfl, by norm_num [aimState]⟩, h.2.1, h.2.2.1⟩

/-- Counterexample for C9 as stated: releasing in `aimState` fires the
shot (pull-back 50 exceeds the threshold), yet the spin vector keeps its
value `(1/2, 1/2)` — the source never clears `spinControl` when a shot
fires (only the C key or the spin UI change it), so the Shot Intent is
not entirely reset to neutral. -/
theorem C9_spin_survives_shot :
    (mouseReleased (fun _ => 1) (fun _ => 0) aimState).isShooting = true ∧
    (mouseReleased (fun _ => 1) (fun _ => 0) aimState).spin.x = 1/2 ∧
    (mouseReleased (fun _ => 1) (fun _ => 0) aimState).spin.y = 1/2 ∧
    ¬((mouseReleased (fun _ => 1) (fun _ => 0) aimState).spin.x = 0 ∧
      (mouseReleased (fun _ => 1) (fun _ => 0) aimState).spin.y = 0) := by
  norm_num [mouseReleased, shootCueBall, aimState, aimBall]

/-- C9 (amended).  After a shot fires from a release gesture, the
pull-back distance returns to 0 and the aim flag is cleared, but the spin
vector is *not* reset by firing: both components keep their values (the
spin is only cleared manually via the C key or changed through the spin
UI). -/
theorem C9_shot_intent_after_fire (cosF sinF : ℚ → ℚ) (s : GameState)
    (hdrag : s.spin.isDragging = false)
    (hfire : s.cue.isAiming = true ∧ s.cueBall.isSome = true ∧ 5 < s.cue.pullBack) :
    (mouseReleased cosF sinF s).isShooting = true ∧
    (mouseReleased cosF sinF s).cue.pullBack = 0 ∧
    (mouseReleased cosF sinF s).cue.isAiming = false ∧
    (mouseReleased cosF sinF s).spin.x = s.spin.x ∧
    (mouseReleased cosF sinF s).spin.y = s.spin.y := by
  obtain ⟨b, hb⟩ := Option.isSome_iff_exists.mp hfire.2.1
  simp [mouseReleased, shootCueBall, hdrag, hfire, hb]

/-- Witness for C9 (amended): the fired release in `aimState` resets the
pull-back and aim flag while both spin components survive. -/
theorem C9_shot_intent_after_fire_witness :
    (mouseReleased (fun _ => 1) (fun _ => 0) aimState).cue.pullBack = 0 ∧
    (mouseReleased (fun _ => 1) (fun _ => 0) aimState).spin.x = aimState.spin.x := by
  have h := C9_shot_intent_after_fire (fun _ => 1) (fun _ => 0) aimState rfl
    ⟨rfl, rfl, by norm_num [aimState]⟩
  exact ⟨h.2.1, h.2.2.2.1⟩

lemma checkPocketCollisions_redBalls (s : GameState) :
    (checkPocketCollisions s).redBalls =
      s.redBalls.filter (fun b => !ballInPocket b) := by
  obtain ⟨cb, reds, cols, cue, spin, placed, shoot, can, rec, traj⟩ := s
  cases cb with
  | none => rfl
  | some b =>
    by_cases hb : ballInPocket b = true <;>
      simp [checkPocketCollisions, hb]

lemma checkPocketCollisions_cueBall (s : GameState) :
    (checkPocketCollisions s).cueBall =
      match s.cueBall with
      | some b => if ballInPocket b then none else some b
      | none => none := by
  obtain ⟨cb, reds, cols, cue, spin, placed, shoot, can, rec, traj⟩ := s
  cases cb with
  | none => rfl
  | some b =>
    by_cases hb : ballInPocket b = true <;>
      simp [checkPocketCollisions, hb]

lemma checkPocketCollisions_coloureds_get (s : GameState) (c : Colour) :
    (checkPocketCollisions s).coloureds.get c =
      respotColoured c (s.coloureds.get c) := by
  obtain ⟨cb, reds, cols, cue, spin, placed, shoot, can, rec, traj⟩ := s
  cases cb with
  | none => cases c <;> rfl
  | some b =>
    by_cases hb : ballInPocket b = true <;>
      cases c <;>
      simp [checkPocketCollisions, hb, Coloureds.get]

lemma checkPocketCollisions_cueBallPlaced (s : GameState) :
    (checkPocketCollisions s).cueBallPlaced =
      match s.cueBall with
      | some b => if ballInPocket b then false else s.cueBallPlaced
      | none => s.cueBallPlaced := by
  obtain ⟨cb, reds, cols, cue, spin, placed, shoot, can, rec, traj⟩ := s
  cases cb with
  | none => rfl
  | some b =>
    by_cases hb : ballInPocket b = true <;>
      simp [checkPocketCollisions, hb]

lemma checkPocketCollisions_red_length (s : GameState) :
    (checkPocketCollisions s).redBalls.length +
      (s.redBalls.filter ballInPocket).length = s.redBalls.length := by
  rw [checkPocketCollisions_redBalls]
  have h := List.length_eq_length_filter_add (l := s.redBalls) ballInPocket
  omega

/-- C4 (amended, strict capture test).  On a capture-detection pass: a
ball whose centre is strictly within the capture radius
(`pocketSize * 0.6`) of some pocket centre is captured regardless of its
velocity — in particular a ball exactly at a pocket centre; a captured
cue ball is nulled out and `cueBallPlaced` cleared; the red count drops
by exactly one per captured red; the live-ball count drops by exactly
the number of captured reds plus one if the cue ball is captured
(coloured captures leave it unchanged); and each captured coloured ball
reappears at its canonical spot with zero velocity, the coloured
complement staying at six. -/
theorem C4_pocket_capture :
    (∀ (b : Ball), ∀ p ∈ pocketPositions, b.x = p.1 → b.y = p.2 →
      ballInPocket b = true) ∧
    (∀ (s : GameState) (b : Ball), s.cueBall = some b → ballInPocket b = true →
      (checkPocketCollisions s).cueBall = none ∧
      (checkPocketCollisions s).cueBallPlaced = false) ∧
    (∀ s : GameState, (checkPocketCollisions s).redBalls.length +
      (s.redBalls.filter ballInPocket).length = s.redBalls.length) ∧
    (∀ s : GameState, liveBallCount (checkPocketCollisions s) +
      ((if cueCaptured s then 1 else 0) +
        (s.redBalls.filter ballInPocket).length) = liveBallCount s) ∧
    (∀ (s : GameState) (c : Colour), ballInPocket (s.coloureds.get c) = true →
      ((checkPocketCollisions s).coloureds.get c).x = (spotPositions c).1 ∧
      ((checkPocketCollisions s).coloureds.get c).y = (spotPositions c).2 ∧
      ((checkPocketCollisions s).coloureds.get c).vx = 0 ∧
      ((checkPocketCollisions s).coloureds.get c).vy = 0) ∧
    (∀ s : GameState, (colouredBallsList (checkPocketCollisions s).coloureds).length =
      (colouredBallsList s.coloureds).length) := by
  refine ⟨?_, ?_, checkPocketCollisions_red_length, ?_, ?_, ?_⟩
  · intro b p hp hx hy
    apply List.any_eq_true.mpr
    refine ⟨p, hp, ?_⟩
    simp only [ballInPocketAt, hx, hy, sub_self, decide_eq_true_eq]
    norm_num [pocketRadius, pocketSize, ballDiameter, tableWidth, tableLength]
  · intro s b hb hcap
    rw [checkPocketCollisions_cueBall, checkPocketCollisions_cueBallPlaced, hb]
    simp [hcap]
  · intro s
    have hred := checkPocketCollisions_red_length s
    have hcue := checkPocketCollisions_cueBall s
    unfold liveBallCount cueCaptured
    rcases h : s.cueBall with _ | b
    · rw [h] at hcue
      simp only [h] at hcue ⊢
      simp only [hcue]
      simp only [Option.isSome_none, Bool.false_eq_true, if_false]
      omega
    · rw [h] at hcue
      by_cases hc : ballInPocket b = true
      · simp only [hc, if_true] at hcue
        simp only [h, hc, hcue, if_true, Option.isSome_none, Option.isSome_some,
          Bool.false_eq_true, if_false]
        omega
      · simp only [hc, if_false] at hcue
        simp only [h, hc, hcue, Option.isSome_some, Bool.false_eq_true, if_false,
          if_true]
        omega
  · intro s c hc
    rw [checkPocketCollisions_coloureds_get]
    simp [respotColoured, hc]
  · intro s
    simp [colouredBallsList]

/-- A moving ball resting exactly on the top-middle pocket centre. -/
def potBall : Ball := ⟨550, 125, 7, -3, BALL_FRICTION_AIR, 0, 0, 0⟩

/-- A state whose cue ball sits exactly on the top-middle pocket centre. -/
def potState : GameState :=
  { cueBall := some potBall
    redBalls := []
    coloureds := colouredsAtSpots
    cue := ⟨0, 280, 0, 120, false, 10, 0, 0⟩
    spin := ⟨0, 0, false⟩
    cueBallPlaced := true
    isShooting := true
    canShoot := false
    recording := true
    trajectory := ⟨[], none, []⟩ }

/-- Witness for C4: a ball with nonzero velocity whose centre coincides
with the top-middle pocket centre is captured, and the capture pass nulls
the cue ball out. -/
theorem C4_pocket_capture_witness :
    ballInPocket potBall = true ∧
    (checkPocketCollisions potState).cueBall = none := by
  have h1 := C4_pocket_capture.1 potBall (tableX + tableLength / 2, tableY)
    (by simp [pocketPositions])
    (by norm_num [potBall, tableX, tableLength, canvasWidth])
    (by norm_num [potBall, tableY, tableWidth, tableLength, canvasHeight])
  exact ⟨h1, (C4_pocket_capture.2.1 potState potBall rfl h1).1⟩

/-- A ball at distance exactly `pocketRadius` from the top-middle pocket
centre `(550, 125)`. -/
def boundaryBall : Ball := ⟨550 + 45/4, 125, 0, 0, BALL_FRICTION_AIR, 0, 0, 0⟩

/-- A state whose cue ball sits exactly on the capture-radius boundary. -/
def boundaryState : GameState :=
  { cueBall := some boundaryBall
    redBalls := []
    coloureds := colouredsAtSpots
    cue := ⟨0, 280, 0, 120, false, 10, 0, 0⟩
    spin := ⟨0, 0, false⟩
    cueBallPlaced := true
    isShooting := true
    canShoot := false
    recording := true
    trajectory := ⟨[], none, []⟩ }

/-- Counterexample for C4 as stated: the source captures on the *strict*
test `dist < pocketRadius`, so a ball whose centre lies within (at
distance exactly equal to) the capture radius of the top-middle pocket
centre is not captured — the capture pass leaves the cue ball in play. -/
theorem C4_boundary_not_captured :
    (boundaryBall.x - (tableX + tableLength / 2)) ^ 2 +
        (boundaryBall.y - tableY) ^ 2 = pocketRadius ^ 2 ∧
    (tableX + tableLength / 2, tableY) ∈ pocketPositions ∧
    ballInPocket boundaryBall = false ∧
    (checkPocketCollisions boundaryState).cueBall = some boundaryBall := by
  have hnot : ballInPocket boundaryBall = false := by
    norm_num [ballInPocket, ballInPocketAt, boundaryBall, pocketPositions,
      pocketOffset, pocketSize, ballDiameter, tableWidth, tableLength, tableX,
      tableY, canvasWidth, canvasHeight, pocketRadius]
  refine ⟨?_, by simp [pocketPositions], hnot, ?_⟩
  · norm_num [boundaryBall, pocketRadius, pocketSize, ballDiameter, tableWidth,
      tableLength, tableX, tableY, canvasWidth, canvasHeight]
  · rw [checkPocketCollisions_cueBall]
    simp [boundaryState, hnot]

/-- Modelled from the spec (§8, "strictly inside the D-zone semicircle"):
the open interior of the geometric D semicircle — centre
`(dZoneCenterX, dZoneBaulkY)`, radius `dRadius`, on the baulk-area side
of the baulk line (larger `y` in canvas coordinates). -/
def specStrictlyInsideD (x y : ℚ) : Prop :=
  (x - dZoneCenterX) ^ 2 + (y - dZoneBaulkY) ^ 2 < dRadius ^ 2 ∧ dZoneBaulkY < y

/-- Modelled from the spec: the closed D-zone semicircle region
(membership in it is what "outside the D-zone" negates). -/
def specInsideD (x y : ℚ) : Prop :=
  (x - dZoneCenterX) ^ 2 + (y - dZoneBaulkY) ^ 2 ≤ dRadius ^ 2 ∧ dZoneBaulkY ≤ y

lemma isInDZone_true_of_strict (x y : ℚ) (h : specStrictlyInsideD x y)
    (hb : y ≤ dZoneInnerBottom) : isInDZone x y = true := by
  obtain ⟨h1, h2⟩ := h
  have hx2 : (x - dZoneCenterX) ^ 2 < dRadius ^ 2 := by
    nlinarith [sq_nonneg (y - dZoneBaulkY)]
  have hr : (0:ℚ) ≤ dRadius := by
    norm_num [dRadius, playAreaWidth, tableWidth, tableLength, cushionThickness]
  obtain ⟨hl, hr2⟩ := abs_lt_of_sq_lt_sq' hx2 hr
  unfold isInDZone
  rw [if_neg (not_lt.mpr (le_of_lt h2)), if_neg (not_lt.mpr hb),
    if_pos (le_of_lt h1)]
  refine decide_eq_true ⟨?_, ?_⟩ <;>
  · norm_num [tableX, canvasWidth, tableLength, cushionThickness, dZoneCenterX,
      dRadius, playAreaWidth, tableWidth] at hl hr2 ⊢
    linarith

lemma isInDZone_false_of_outside (x y : ℚ) (h : ¬ specInsideD x y) :
    isInDZone x y = false := by
  unfold specInsideD at h
  unfold isInDZone
  by_cases h1 : y < dZoneBaulkY
  · rw [if_pos h1]
  · rw [if_neg h1]
    by_cases h2 : dZoneInnerBottom < y
    · rw [if_pos h2]
    · rw [if_neg h2]
      by_cases h3 : (x - dZoneCenterX) ^ 2 + (y - dZoneBaulkY) ^ 2 ≤ dRadius ^ 2
      · exact absurd ⟨h3, not_lt.mp h1⟩ h
      · rw [if_neg h3]

lemma isOverlappingBall_false_of_far (s : GameState) (x y : ℚ)
    (hfar : ∀ b ∈ colouredBallsList s.coloureds ++ s.redBalls,
      ballDiameter ^ 2 < (x - b.x) ^ 2 + (y - b.y) ^ 2) :
    isOverlappingBall s x y = false := by
  unfold isOverlappingBall
  rw [Bool.or_eq_false_iff]
  constructor
  · apply List.any_eq_false.mpr
    intro b hb
    have h := hfar b (List.mem_append_left _ hb)
    simp only [decide_eq_true_eq, not_lt]
    linarith
  · apply List.any_eq_false.mpr
    intro b hb
    have h := hfar b (List.mem_append_right _ hb)
    simp only [decide_eq_true_eq, not_lt]
    linarith

lemma isOverlappingBall_true_of_close (s : GameState) (x y : ℚ) (b : Ball)
    (hb : b ∈ colouredBallsList s.coloureds ++ s.redBalls)
    (hclose : (x - b.x) ^ 2 + (y - b.y) ^ 2 < ballDiameter ^ 2) :
    isOverlappingBall s x y = true := by
  unfold isOverlappingBall
  rcases List.mem_append.mp hb with h | h
  · rw [List.any_eq_true.mpr ⟨b, h, decide_eq_true hclose⟩, Bool.true_or]
  · rw [List.any_eq_true.mpr ⟨b, h, decide_eq_true hclose⟩, Bool.or_true]

/-- C5 (amended).  Cue-ball placement via `mousePressed` in the
placement state (cue ball not yet placed, press not on the spin
control): a press strictly inside the D semicircle *that is not below
the inner bottom cushion line* and farther than one ball diameter from
every existing ball creates exactly one cue ball at that point and
changes nothing else; a press outside the D-zone semicircle, or within
one ball diameter of an existing ball's centre, is a no-op. -/
theorem C5_place_cue_ball (o : MathOracle) :
    (∀ (x y : ℚ) (s : GameState), s.cueBallPlaced = false →
      isInsideSpinControl x y = false →
      specStrictlyInsideD x y → y ≤ dZoneInnerBottom →
      (∀ b ∈ colouredBallsList s.coloureds ++ s.redBalls,
        ballDiameter ^ 2 < (x - b.x) ^ 2 + (y - b.y) ^ 2) →
      mousePressed o x y s =
        { s with
            cueBall := some ⟨x, y, 0, 0, BALL_FRICTION_AIR, 0, 0, 0⟩
            cueBallPlaced := true }) ∧
    (∀ (x y : ℚ) (s : GameState), s.cueBallPlaced = false →
      isInsideSpinControl x y = false →
      ¬ specInsideD x y →
      mousePressed o x y s = s) ∧
    (∀ (x y : ℚ) (s : GameState) (b : Ball), s.cueBallPlaced = false →
      isInsideSpinControl x y = false →
      b ∈ colouredBallsList s.coloureds ++ s.redBalls →
      (x - b.x) ^ 2 + (y - b.y) ^ 2 < ballDiameter ^ 2 →
      mousePressed o x y s = s) := by
  refine ⟨?_, ?_, ?_⟩
  · intro x y s hplaced hspin hin hbot hfar
    rw [mousePressed]
    rw [if_neg (by rw [hspin]; exact Bool.false_ne_true)]
    rw [if_pos (by rw [hplaced]; rfl)]
    rw [if_pos (by rw [isInDZone_true_of_strict x y hin hbot,
      isOverlappingBall_false_of_far s x y hfar]; rfl)]
    rfl
  · intro x y s hplaced hspin hout
    rw [mousePressed]
    rw [if_neg (by rw [hspin]; exact Bool.false_ne_true)]
    rw [if_pos (by rw [hplaced]; rfl)]
    rw [if_neg (by rw [isInDZone_false_of_outside x y hout]; simp)]
  · intro x y s b hplaced hspin hb hclose
    rw [mousePressed]
    rw [if_neg (by rw [hspin]; exact Bool.false_ne_true)]
    rw [if_pos (by rw [hplaced]; rfl)]
    rw [if_neg (by rw [isOverlappingBall_true_of_close s x y b hb hclose]; simp)]

/-- The awaiting-placement state: no cue ball, reds cleared for clarity,
coloureds on their spots. -/
def placementState : GameState :=
  { cueBall := none
    redBalls := []
    coloureds := colouredsAtSpots
    cue := ⟨0, 280, 0, 120, false, 10, 0, 0⟩
    spin := ⟨0, 0, false⟩
    cueBallPlaced := false
    isShooting := false
    canShoot := true
    recording := false
    trajectory := ⟨[], none, []⟩ }

/-- Oracle for placement runs (its entries are never consulted on the
placement path). -/
def placeOracle : MathOracle := ⟨fun _ => 0, fun _ => 0, fun _ => 0, fun _ _ => 0, 0⟩

/-- Witness for C5: pressing at `(500, 480)` — strictly inside the D,
above the bottom cushion line, far from every spotted ball — creates the
cue ball there. -/
theorem C5_place_cue_ball_witness :
    mousePressed placeOracle 500 480 placementState =
      { placementState with
          cueBall := some ⟨500, 480, 0, 0, BALL_FRICTION_AIR, 0, 0, 0⟩
          cueBallPlaced := true } := by
  apply (C5_place_cue_ball placeOracle).1 500 480 placementState rfl
  · norm_num [isInsideSpinControl, spinUiX, spinUiY, spinUiRadius, canvasWidth,
      canvasHeight]
  · constructor <;>
      norm_num [dZoneCenterX, dZoneBaulkY, dZoneInnerBottom, tableX, tableY,
        tableWidth, tableLength, canvasWidth, canvasHeight, cushionThickness,
        dRadius, playAreaWidth]
  · norm_num [dZoneInnerBottom, tableY, tableWidth, tableLength, canvasHeight,
      cushionThickness]
  · intro b hb
    simp only [placementState, colouredBallsList, colourList, colouredsAtSpots,
      Coloureds.get, spotBall, List.map_cons, List.map_nil, List.append_nil,
      List.mem_cons, List.not_mem_nil, or_false] at hb
    rcases hb with rfl | rfl | rfl | rfl | rfl | rfl <;>
      norm_num [ballDiameter, tableWidth, tableLength, spotPositions,
        spotCenterX, spotBaulkY, spotPlayTop, spotPlayBottom, spotPlayHeight,
        tableX, tableY, canvasWidth, canvasHeight, cushionThickness, dRadius,
        playAreaWidth]

/-- Counterexample for C5 as stated: `(550, 560)` lies strictly inside
the D-zone semicircle (the D radius `104` exceeds the `80`-pixel gap
between the baulk line and the bottom cushion, so the semicircle spills
past the play area) and overlaps no ball, yet `isInDZone` rejects it
(`560` is below the inner bottom boundary `550`) and the placement press
is a no-op — no cue ball is created. -/
theorem C5_semicircle_point_rejected :
    specStrictlyInsideD 550 560 ∧
    isOverlappingBall placementState 550 560 = false ∧
    mousePressed placeOracle 550 560 placementState = placementState := by
  refine ⟨⟨?_, ?_⟩, ?_, ?_⟩
  · norm_num [dZoneCenterX, dZoneBaulkY, dZoneInnerBottom, tableX, tableY,
      tableWidth, tableLength, canvasWidth, canvasHeight, cushionThickness,
      dRadius, playAreaWidth]
  · norm_num [dZoneBaulkY, dZoneInnerBottom, tableY, tableWidth, tableLength,
      canvasHeight, cushionThickness]
  · norm_num [isOverlappingBall, colouredBallsList, colourList, colouredsAtSpots,
      spotBall, Coloureds.get, placementState, spotPositions, spotCenterX,
      spotBaulkY, spotPlayTop, spotPlayBottom, spotPlayHeight, dRadius,
      playAreaWidth, tableX, tableY, tableWidth, tableLength, canvasWidth,
      canvasHeight, cushionThickness, ballDiameter]
  · have hz : isInDZone 550 560 = false := by
      norm_num [isInDZone, dZoneBaulkY, dZoneInnerBottom, tableY, tableWidth,
        tableLength, canvasHeight, cushionThickness]
    rw [mousePressed]
    rw [if_neg (by
      norm_num [isInsideSpinControl, spinUiX, spinUiY, spinUiRadius,
        canvasWidth, canvasHeight])]
    rw [if_pos (by rfl)]
    rw [if_neg (by rw [hz]; simp)]

end Snooker
